import Mathlib

/-!
Verification of the cash-flow projection and investment-appraisal engine of
`investment_app.py`.

The numeric core is embedded shallowly over `ℚ` (exact rational arithmetic in
place of IEEE floats): the year-by-year cash-flow schedule (source lines
294-319), the metric computation `calculate_project_metrics` (lines 100-158),
the input normalization (lines 256-263) and the dispatch guarding the metric
computation behind `wacc > 0` (lines 333-374).

The library calls `npf.npv` and `npf.irr` are embedded from the
numpy_financial 1.0.0 sources the program runs against: `npf.npv` is the
direct discounted sum `(values / (1 + rate) ** arange(len(values))).sum()`;
`npf.irr` finds the real positive roots of the polynomial
`sum_i values[i] * x^i` (via `np.roots` on the reversed coefficients, an
eigenvalue computation modelled here at the level of real numbers) and
returns `np.nan` exactly when that root set is empty. The nan case is what
the program treats as "IRR not computable", so it is modelled as the
proposition `npf_irr_nan`; the Python float `nan` carried around by the
program corresponds to `Option.none` below.
-/

namespace InvestApp

/-- Row of the cash-flow table built at source lines 308-317; one row per
year `1..N`, with the columns of the `cashflow_data` dict. -/
structure CashFlowRow where
  year : Nat
  revenue : ℚ
  operatingCost : ℚ
  depreciation : ℚ
  ebt : ℚ
  tax : ℚ
  eat : ℚ
  netCashFlow : ℚ

/-- Cash-flow schedule of source lines 296-317: straight-line depreciation
`initial_investment / project_life`, `EBT = revenue - cost - depreciation`,
`Tax = EBT * tax_rate if EBT > 0 else 0`, `EAT = EBT - Tax`,
`CF = EAT + depreciation`, each column repeated `project_life` times. -/
def cashflow_schedule (initial_investment annual_revenue annual_cost tax_rate : ℚ)
    (project_life : Nat) : List CashFlowRow :=
  let depreciation := initial_investment / (project_life : ℚ)
  let EBT := annual_revenue - annual_cost - depreciation
  let Tax := if 0 < EBT then EBT * tax_rate else 0
  let EAT := EBT - Tax
  let CF := EAT + depreciation
  (List.range project_life).map (fun i =>
    { year := i + 1
      revenue := annual_revenue
      operatingCost := annual_cost
      depreciation := depreciation
      ebt := EBT
      tax := Tax
      eat := EAT
      netCashFlow := CF })

/-- Full cash-flow vector of source line 107:
`np.insert(cash_flows, 0, -initial_investment)`. -/
def full_cash_flows (initial_investment : ℚ) (cash_flows : List ℚ) : List ℚ :=
  -initial_investment :: cash_flows

/-- Embedding of `numpy_financial.npv` (called at source line 111):
`(values / (1 + rate) ** np.arange(0, len(values))).sum()`. -/
def npf_npv (rate : ℚ) (values : List ℚ) : ℚ :=
  ((List.range values.length).map (fun i => values.getD i 0 / (1 + rate) ^ i)).sum

/-- Running cumulative sums with accumulator, mirroring `np.cumsum`. -/
def cumsumAux (acc : ℚ) : List ℚ → List ℚ
  | [] => []
  | x :: xs => (acc + x) :: cumsumAux (acc + x) xs

/-- Embedding of `np.cumsum` (source lines 121 and 141). -/
def cumsum (l : List ℚ) : List ℚ := cumsumAux 0 l

/-- Index of the first entry `≥ 0`, mirroring `np.where(c >= 0)[0]` followed
by taking element `[0]` when the index array is nonempty (source lines
122-126 and 143-147); `none` when no entry is `≥ 0`. -/
def firstNonnegIdx : List ℚ → Option Nat
  | [] => none
  | x :: xs => if 0 ≤ x then some 0 else (firstNonnegIdx xs).map (· + 1)

/-- Payback-period block of source lines 120-136. `none` stands for the
string sentinel meaning the project never recovers its outlay. -/
def payback_from (full : List ℚ) : Option ℚ :=
  let cumulative_cf := cumsum full
  match firstNonnegIdx cumulative_cf with
  | none => none
  | some pp_year =>
    if pp_year = 0 then some 0
    else
      let capital_remaining := |cumulative_cf.getD (pp_year - 1) 0|
      let cf_of_payback_year := full.getD pp_year 0
      if cf_of_payback_year ≠ 0 then
        some ((pp_year : ℚ) - 1 + capital_remaining / cf_of_payback_year)
      else
        some (pp_year : ℚ)

/-- Discount factors of source line 139:
`1 / ((1 + wacc) ** np.arange(0, len(full_cash_flows)))`. -/
def discount_factors (wacc : ℚ) (n : Nat) : List ℚ :=
  (List.range n).map (fun i => 1 / (1 + wacc) ^ i)

/-- Discounted cash-flow vector of source line 140:
`full_cash_flows * discount_factors` (elementwise). -/
def discounted_cf (wacc : ℚ) (full : List ℚ) : List ℚ :=
  List.zipWith (fun a b => a * b) full (discount_factors wacc full.length)

/-- Discounted-payback block of source lines 138-156, written out exactly as
the source duplicates the undiscounted block. -/
def dpp_from (wacc : ℚ) (full : List ℚ) : Option ℚ :=
  let discounted := discounted_cf wacc full
  let cumulative_dcf := cumsum discounted
  match firstNonnegIdx cumulative_dcf with
  | none => none
  | some dpp_year =>
    if dpp_year = 0 then some 0
    else
      let capital_remaining_d := |cumulative_dcf.getD (dpp_year - 1) 0|
      let dcf_of_payback_year := discounted.getD dpp_year 0
      if dcf_of_payback_year ≠ 0 then
        some ((dpp_year : ℚ) - 1 + capital_remaining_d / dcf_of_payback_year)
      else
        some (dpp_year : ℚ)

/-- Value at `x` of the polynomial `sum_i values[i] * x^i` whose positive
real roots `numpy_financial.irr` searches for (`np.roots(values[::-1])`
followed by the mask `(res.imag == 0) & (res.real > 0)`). -/
noncomputable def polyEval (values : List ℚ) (x : ℝ) : ℝ :=
  ∑ i in Finset.range values.length, (values.getD i 0 : ℝ) * x ^ i

/-- Condition under which `numpy_financial.irr` (source line 116) returns
`np.nan`: the root mask is empty, i.e. the cash-flow polynomial has no real
root `x > 0`. The program's `except ValueError` fallback at lines 117-118
also sets `np.nan`, so `nan` is the only not-computable outcome. -/
def npf_irr_nan (values : List ℚ) : Prop :=
  ∀ x : ℝ, 0 < x → polyEval values x ≠ 0

/-- Result record of `calculate_project_metrics` (source line 158). The IRR
component is represented by the proposition that `irr_value` is `np.nan`,
since the numeric root itself is irrational in general. -/
structure MetricsResult where
  npv_value : ℚ
  irr_value_is_nan : Prop
  pp : Option ℚ
  dpp : Option ℚ

/-- Embedding of `calculate_project_metrics` (source lines 100-158): the
cash flows are the `netCashFlow` column of the schedule, prefixed by
`-initial_investment`. -/
def calculate_project_metrics (df_cashflow : List CashFlowRow)
    (initial_investment wacc : ℚ) : MetricsResult :=
  let cash_flows := df_cashflow.map (fun row => row.netCashFlow)
  let full := full_cash_flows initial_investment cash_flows
  { npv_value := npf_npv wacc full
    irr_value_is_nan := npf_irr_nan full
    pp := payback_from full
    dpp := dpp_from wacc full }

/-- Display value the `metrics_data` dict stores for IRR (source line 338):
`irr if not np.isnan(irr) else 0.0`. -/
def metrics_data_IRR (irr_value : Option ℝ) : ℝ :=
  match irr_value with
  | some r => r
  | none => 0

/-- Guarded dispatch of source lines 333-374: `calculate_project_metrics`
runs only under `if wacc > 0`, the `else` branch only shows a warning. -/
def metrics_section (df_cashflow : List CashFlowRow)
    (initial_investment wacc : ℚ) : Option MetricsResult :=
  if 0 < wacc then some (calculate_project_metrics df_cashflow initial_investment wacc)
  else none

/-- Normalization of `wacc` and `tax_rate` at source lines 257-258:
`if v > 1 and v <= 100: v /= 100`. -/
def normalize_rate (v : ℚ) : ℚ :=
  if 1 < v ∧ v ≤ 100 then v / 100 else v

/-- Validity check on the coerced project life at source lines 261-263: a
non-positive life is replaced by `1` and an error message is shown; the
boolean records whether the message was shown. -/
def project_life_check (project_life : Int) : Int × Bool :=
  if project_life ≤ 0 then (1, true) else (project_life, false)

/-- Cumulative undiscounted sum `sum_{i=0..y} F_i`, stated from the spec's
words for the refinement claims about the payback search. -/
def cumSumSpec (F : List ℚ) (y : Nat) : ℚ :=
  ∑ i in Finset.range (y + 1), F.getD i 0

/-- Payback value the spec prescribes once the first index `y` with
cumulative sum `≥ 0` is known: `0` at `y = 0`; linear interpolation
`(y-1) + |cumulative through y-1| / F_y` when `F_y ≠ 0`; exactly `y`
when `F_y = 0`. Stated from the spec's words for the refinement claim. -/
def ppSpecValue (F : List ℚ) (y : Nat) : ℚ :=
  if y = 0 then 0
  else if F.getD y 0 ≠ 0 then (y : ℚ) - 1 + |cumSumSpec F (y - 1)| / F.getD y 0
  else (y : ℚ)

/-- Direct discounted sum the spec prescribes for NPV:
`F_0 / 1 + sum_{i=1..N} F_i / (1+wacc)^i`, the year-0 term undiscounted.
Stated from the spec's words for the refinement claim. -/
def npvSpecSum (wacc : ℚ) (F : List ℚ) : ℚ :=
  F.getD 0 0 / 1 + ∑ i in Finset.range (F.length - 1), F.getD (i + 1) 0 / (1 + wacc) ^ (i + 1)

/-! ### Auxiliary lemmas about lists, cumulative sums and the first
nonnegative index -/

theorem sum_map_range (f : Nat → ℚ) (n : Nat) :
    ((List.range n).map f).sum = ∑ i in Finset.range n, f i := by
  induction n with
  | zero => simp
  | succ n ih =>
    rw [List.range_succ, List.map_append, List.sum_append, Finset.sum_range_succ, ih]
    simp

theorem getD_map_range {α : Type} (f : Nat → α) (d : α) {n i : Nat} (h : i < n) :
    ((List.range n).map f).getD i d = f i := by
  have hlen : i < ((List.range n).map f).length := by simpa using h
  rw [List.getD_eq_getElem _ _ hlen]
  simp

theorem getD_zipWith_mul (l₁ l₂ : List ℚ) (i : Nat) (h₁ : i < l₁.length)
    (h₂ : i < l₂.length) :
    (List.zipWith (fun a b => a * b) l₁ l₂).getD i 0 = l₁.getD i 0 * l₂.getD i 0 := by
  have hlen : i < (List.zipWith (fun a b => a * b) l₁ l₂).length := by
    rw [List.length_zipWith]; omega
  rw [List.getD_eq_getElem _ _ hlen, List.getD_eq_getElem _ _ h₁, List.getD_eq_getElem _ _ h₂]
  exact List.getElem_zipWith

theorem cumsumAux_length (acc : ℚ) (l : List ℚ) : (cumsumAux acc l).length = l.length := by
  induction l generalizing acc with
  | nil => rfl
  | cons x xs ih => simp [cumsumAux, ih]

theorem cumsum_length (l : List ℚ) : (cumsum l).length = l.length := cumsumAux_length 0 l

theorem cumsumAux_getD (acc : ℚ) (l : List ℚ) (y : Nat) (h : y < l.length) :
    (cumsumAux acc l).getD y 0 = acc + ∑ i in Finset.range (y + 1), l.getD i 0 := by
  induction l generalizing acc y with
  | nil => simp at h
  | cons x xs ih =>
    cases y with
    | zero => simp [cumsumAux, Finset.sum_range_one]
    | succ y =>
      have hy : y < xs.length := by simpa using h
      simp only [cumsumAux, List.getD_cons_succ]
      rw [ih (acc + x) y hy,
        Finset.sum_range_succ' (fun i => (x :: xs).getD i 0) (y + 1)]
      simp only [List.getD_cons_succ, List.getD_cons_zero]
      ring

theorem cumsum_getD (l : List ℚ) (y : Nat) (h : y < l.length) :
    (cumsum l).getD y 0 = cumSumSpec l y := by
  rw [cumsum, cumsumAux_getD 0 l y h, zero_add, cumSumSpec]

theorem firstNonnegIdx_none_iff (l : List ℚ) :
    firstNonnegIdx l = none ↔ ∀ j < l.length, l.getD j 0 < 0 := by
  induction l with
  | nil => simp [firstNonnegIdx]
  | cons x xs ih =>
    by_cases hx : 0 ≤ x
    · simp only [firstNonnegIdx, if_pos hx]
      constructor
      · intro h; exact absurd h (by simp)
      · intro h
        exact absurd (by simpa using h 0 (by simp)) (not_lt.mpr hx)
    · simp only [firstNonnegIdx, if_neg hx, Option.map_eq_none']
      rw [ih]
      constructor
      · intro h j hj
        cases j with
        | zero => simpa using lt_of_not_le hx
        | succ j => simpa using h j (by simpa using hj)
      · intro h j hj
        simpa using h (j + 1) (by simpa using hj)

theorem firstNonnegIdx_some_iff (l : List ℚ) (y : Nat) :
    firstNonnegIdx l = some y ↔
      y < l.length ∧ 0 ≤ l.getD y 0 ∧ ∀ j < y, l.getD j 0 < 0 := by
  induction l generalizing y with
  | nil => simp [firstNonnegIdx]
  | cons x xs ih =>
    by_cases hx : 0 ≤ x
    · simp only [firstNonnegIdx, if_pos hx]
      constructor
      · intro h
        have hy : y = 0 := by
          have := Option.some.inj h; omega
        subst hy
        exact ⟨by simp, by simpa using hx, by omega⟩
      · rintro ⟨hy, hge, hlt⟩
        cases y with
        | zero => rfl
        | succ y => exact absurd (by simpa using hlt 0 (by omega)) (not_lt.mpr hx)
    · simp only [firstNonnegIdx, if_neg hx]
      cases y with
      | zero =>
        rw [Option.map_eq_some']
        constructor
        · rintro ⟨y', _, heq⟩
          exact absurd heq (by omega)
        · rintro ⟨_, hge, _⟩
          exact absurd (by simpa using hge) hx
      | succ y =>
        rw [Option.map_eq_some']
        constructor
        · rintro ⟨y', hy', heq⟩
          have hyy : y' = y := by omega
          rw [hyy] at hy'
          obtain ⟨h1, h2, h3⟩ := (ih y).mp hy'
          refine ⟨by simpa using h1, by simpa using h2, ?_⟩
          intro j hj
          cases j with
          | zero => simpa using lt_of_not_le hx
          | succ j => simpa using h3 j (by omega)
        · rintro ⟨hy, hge, hlt⟩
          refine ⟨y, (ih y).mpr ⟨by simpa using hy, by simpa using hge, ?_⟩, rfl⟩
          intro j hj
          simpa using hlt (j + 1) (by omega)

/-! ### Structure of the payback computation -/

theorem cumSumSpec_succ (F : List ℚ) (z : Nat) :
    cumSumSpec F (z + 1) = cumSumSpec F z + F.getD (z + 1) 0 := by
  rw [cumSumSpec, cumSumSpec, Finset.sum_range_succ]

/-- When the first nonnegative cumulative sum occurs at a year `y ≥ 1`, the
cash flow of that year is strictly positive, the interpolation branch is the
one taken, and the interpolated fraction lies in `[0, 1]`. -/
theorem payback_interp (L : List ℚ) (y : Nat)
    (hy : firstNonnegIdx (cumsum L) = some y) (h1 : 1 ≤ y) :
    0 < L.getD y 0 ∧
      payback_from L =
        some ((y : ℚ) - 1 + |(cumsum L).getD (y - 1) 0| / L.getD y 0) ∧
      0 ≤ |(cumsum L).getD (y - 1) 0| / L.getD y 0 ∧
      |(cumsum L).getD (y - 1) 0| / L.getD y 0 ≤ 1 := by
  obtain ⟨z, rfl⟩ : ∃ z, y = z + 1 := ⟨y - 1, by omega⟩
  obtain ⟨hylen, hge, hlt⟩ := (firstNonnegIdx_some_iff _ (z + 1)).mp hy
  rw [cumsum_length] at hylen
  have hzlen : z < L.length := by omega
  have hgeS : 0 ≤ cumSumSpec L (z + 1) := by rwa [cumsum_getD L (z + 1) hylen] at hge
  have hltS : cumSumSpec L z < 0 := by
    have := hlt z (by omega)
    rwa [cumsum_getD L z hzlen] at this
  have hcf : 0 < L.getD (z + 1) 0 := by
    have := cumSumSpec_succ L z
    linarith [hgeS, hltS, this.symm.le, this.le]
  have habs : |(cumsum L).getD (z + 1 - 1) 0| = -cumSumSpec L z := by
    have hz1 : z + 1 - 1 = z := by omega
    rw [hz1, cumsum_getD L z hzlen, abs_of_neg hltS]
  have hfrac0 : 0 ≤ |(cumsum L).getD (z + 1 - 1) 0| / L.getD (z + 1) 0 := by
    rw [habs]
    exact div_nonneg (by linarith) hcf.le
  have hfrac1 : |(cumsum L).getD (z + 1 - 1) 0| / L.getD (z + 1) 0 ≤ 1 := by
    rw [habs, div_le_one hcf]
    have := cumSumSpec_succ L z
    linarith
  refine ⟨hcf, ?_, hfrac0, hfrac1⟩
  simp only [payback_from, hy]
  rw [if_neg (Nat.succ_ne_zero z), if_pos (ne_of_gt hcf)]

/-- Every finite payback result lies between `0` and the horizon length
`L.length - 1` (the number of operating years of the full vector). -/
theorem payback_from_bounds (L : List ℚ) (p : ℚ) (hp : payback_from L = some p) :
    0 ≤ p ∧ p ≤ (L.length : ℚ) - 1 := by
  cases hfi : firstNonnegIdx (cumsum L) with
  | none => rw [payback_from] at hp; rw [hfi] at hp; exact absurd hp (by simp)
  | some y =>
    have hylen : y < L.length := by
      have := ((firstNonnegIdx_some_iff _ y).mp hfi).1
      rwa [cumsum_length] at this
    have hyQ : (y : ℚ) ≤ (L.length : ℚ) - 1 := by
      have : (y : ℚ) + 1 ≤ (L.length : ℚ) := by exact_mod_cast hylen
      linarith
    by_cases hy0 : y = 0
    · subst hy0
      have hp0 : p = 0 := by
        rw [payback_from] at hp; rw [hfi] at hp
        simpa using hp.symm
      subst hp0
      exact ⟨le_refl 0, by linarith⟩
    · have h1 : 1 ≤ y := by omega
      obtain ⟨hcf, heq, hfrac0, hfrac1⟩ := payback_interp L y hfi h1
      rw [heq] at hp
      have hpv := Option.some.inj hp
      have h1Q : (1 : ℚ) ≤ (y : ℚ) := by exact_mod_cast h1
      constructor
      · rw [← hpv]; linarith
      · rw [← hpv]; linarith

/-! ### Claim theorems -/

/-- C7: normalization of `wacc` and `tax_rate`: a raw value `v` with
`1 < v ≤ 100` becomes `v / 100`; a value `v ≤ 1` is left unchanged; a value
`v > 100` is left as-is. -/
theorem C7_rate_normalization (v : ℚ) :
    (1 < v → v ≤ 100 → normalize_rate v = v / 100) ∧
    (v ≤ 1 → normalize_rate v = v) ∧
    (100 < v → normalize_rate v = v) := by
  refine ⟨fun h1 h2 => ?_, fun h => ?_, fun h => ?_⟩
  · rw [normalize_rate, if_pos ⟨h1, h2⟩]
  · rw [normalize_rate, if_neg]
    rintro ⟨h1, -⟩
    exact absurd h (not_le.mpr h1)
  · rw [normalize_rate, if_neg]
    rintro ⟨-, h2⟩
    exact absurd h (not_lt.mpr h2)

/-- Witness for C7 at the spec's own example: the raw percentage `13`
normalizes to `0.13`. -/
theorem C7_rate_normalization_witness :
    (1 : ℚ) < 13 ∧ (13 : ℚ) ≤ 100 ∧ normalize_rate 13 = 13 / 100 :=
  ⟨by norm_num, by norm_num,
    (C7_rate_normalization 13).1 (by norm_num) (by norm_num)⟩

/-- C8: a coerced project life `≤ 0` is replaced by `1` with the error
message shown, and the value processing continues with is always `≥ 1` (so
the pipeline neither aborts nor proceeds with a non-positive life). -/
theorem C8_project_life_default (n : Int) :
    (n ≤ 0 → project_life_check n = (1, true)) ∧
    1 ≤ (project_life_check n).1 := by
  constructor
  · intro h
    rw [project_life_check, if_pos h]
  · rw [project_life_check]
    by_cases h : n ≤ 0
    · rw [if_pos h]
    · rw [if_neg h]
      simpa using by omega

/-- Witness for C8 at the concrete invalid life `-3`. -/
theorem C8_project_life_default_witness :
    (-3 : Int) ≤ 0 ∧ project_life_check (-3) = (1, true) :=
  ⟨by decide, (C8_project_life_default (-3)).1 (by decide)⟩

/-- C9: when the normalized `wacc` is `≤ 0`, the dispatch of source lines
333-374 never invokes `calculate_project_metrics`: the metric section
produces no result and only the warning branch runs. -/
theorem C9_wacc_guard (df : List CashFlowRow) (initial_investment wacc : ℚ)
    (h : wacc ≤ 0) :
    metrics_section df initial_investment wacc = none := by
  rw [metrics_section, if_neg (not_lt.mpr h)]

/-- Witness for C9 at `wacc = 0` on a one-row schedule. -/
theorem C9_wacc_guard_witness :
    (0 : ℚ) ≤ 0 ∧ metrics_section [⟨1, 0, 0, 0, 0, 0, 0, 500⟩] 1000 0 = none :=
  ⟨le_refl 0, C9_wacc_guard [⟨1, 0, 0, 0, 0, 0, 0, 500⟩] 1000 0 (le_refl 0)⟩

/-- C3: the payback computation of source lines 120-136 realizes the spec's
algorithm: the result is the never-recovers sentinel exactly when no
cumulative sum `sum_{i=0..y} F_i` is ever `≥ 0`; and if `y` is the smallest
index with cumulative sum `≥ 0`, the result is `0` at `y = 0`, the linear
interpolation `(y-1) + |cumulative through y-1| / F_y` when `F_y ≠ 0`, and
exactly `y` when `F_y = 0`. -/
theorem C3_payback_algorithm (F : List ℚ) :
    (payback_from F = none ↔ ∀ y < F.length, cumSumSpec F y < 0) ∧
    ∀ y < F.length, 0 ≤ cumSumSpec F y → (∀ j < y, cumSumSpec F j < 0) →
      payback_from F = some (ppSpecValue F y) := by
  constructor
  · constructor
    · intro h y hy
      have hfi : firstNonnegIdx (cumsum F) = none := by
        cases hfi : firstNonnegIdx (cumsum F) with
        | none => rfl
        | some y' =>
          exfalso
          by_cases hy0 : y' = 0
          · subst hy0
            rw [payback_from] at h; rw [hfi] at h
            exact absurd h (by simp)
          · obtain ⟨-, heq, -, -⟩ := payback_interp F y' hfi (by omega)
            rw [heq] at h
            exact absurd h (by simp)
      have := (firstNonnegIdx_none_iff _).mp hfi y (by rwa [cumsum_length])
      rwa [cumsum_getD F y hy] at this
    · intro h
      have hfi : firstNonnegIdx (cumsum F) = none := by
        apply (firstNonnegIdx_none_iff _).mpr
        intro j hj
        rw [cumsum_length] at hj
        rw [cumsum_getD F j hj]
        exact h j hj
      rw [payback_from]; rw [hfi]
  · intro y hy hge hlt
    have hfi : firstNonnegIdx (cumsum F) = some y := by
      apply (firstNonnegIdx_some_iff _ _).mpr
      refine ⟨by rwa [cumsum_length], by rwa [cumsum_getD F y hy], ?_⟩
      intro j hj
      rw [cumsum_getD F j (lt_trans hj hy)]
      exact hlt j hj
    by_cases hy0 : y = 0
    · subst hy0
      rw [ppSpecValue, if_pos rfl]
      simp [payback_from, hfi]
    · obtain ⟨hcf, heq, -, -⟩ := payback_interp F y hfi (by omega)
      rw [heq, ppSpecValue, if_neg hy0, if_pos (ne_of_gt hcf)]
      rw [cumsum_getD F (y - 1) (by omega)]

/-- Witness for C3 at the spec's boundary example `F = [-1000, 500, 500,
500]`, whose payback year is `y = 2`. -/
theorem C3_payback_algorithm_witness :
    0 ≤ cumSumSpec [-1000, 500, 500, 500] 2 ∧
      payback_from [-1000, 500, 500, 500] =
        some (ppSpecValue [-1000, 500, 500, 500] 2) :=
  ⟨by norm_num [cumSumSpec, Finset.sum_range_succ],
    (C3_payback_algorithm [-1000, 500, 500, 500]).2 2 (by norm_num)
      (by norm_num [cumSumSpec, Finset.sum_range_succ])
      (by
        intro j hj
        interval_cases j <;> norm_num [cumSumSpec, Finset.sum_range_succ])⟩

/-- C4: the discounted payback block of source lines 138-156 is exactly the
undiscounted payback algorithm applied to the discounted vector, whose
`i`-th entry is `F_i / (1 + wacc)^i`. -/
theorem C4_dpp_same_algorithm (F : List ℚ) (wacc : ℚ) (h : 0 < wacc) :
    dpp_from wacc F = payback_from (discounted_cf wacc F) ∧
    ∀ i < F.length, (discounted_cf wacc F).getD i 0 = F.getD i 0 / (1 + wacc) ^ i := by
  refine ⟨rfl, fun i hi => ?_⟩
  rw [discounted_cf,
    getD_zipWith_mul _ _ i hi (by simpa [discount_factors] using hi),
    discount_factors, getD_map_range _ _ hi, one_div, ← div_eq_mul_inv]

/-- Witness for C4 at `wacc = 1` on the vector `[-100, 60, 60]`. -/
theorem C4_dpp_same_algorithm_witness :
    (0 : ℚ) < 1 ∧
      (dpp_from 1 [-100, 60, 60] = payback_from (discounted_cf 1 [-100, 60, 60]) ∧
        ∀ i < ([-100, 60, 60] : List ℚ).length,
          (discounted_cf 1 [-100, 60, 60]).getD i 0 =
            ([-100, 60, 60] : List ℚ).getD i 0 / (1 + 1) ^ i) :=
  ⟨one_pos, C4_dpp_same_algorithm [-100, 60, 60] 1 one_pos⟩

/-- C10: a finite payback (undiscounted or discounted) coming from a payback
year `y ≥ 1` has a strictly positive (discounted) cash flow in that year, so
the zero-divisor fallback is never taken, the interpolated fraction lies in
`[0, 1]`, and every finite result lies between `0` and the horizon length
`N = F.length - 1`. -/
theorem C10_payback_safety (F : List ℚ) (wacc : ℚ) :
    (∀ y, firstNonnegIdx (cumsum F) = some y → 1 ≤ y →
      0 < F.getD y 0 ∧
        payback_from F =
          some ((y : ℚ) - 1 + |(cumsum F).getD (y - 1) 0| / F.getD y 0) ∧
        0 ≤ |(cumsum F).getD (y - 1) 0| / F.getD y 0 ∧
        |(cumsum F).getD (y - 1) 0| / F.getD y 0 ≤ 1) ∧
    (∀ p, payback_from F = some p → 0 ≤ p ∧ p ≤ (F.length : ℚ) - 1) ∧
    (∀ y, firstNonnegIdx (cumsum (discounted_cf wacc F)) = some y → 1 ≤ y →
      0 < (discounted_cf wacc F).getD y 0 ∧
        dpp_from wacc F =
          some ((y : ℚ) - 1 +
            |(cumsum (discounted_cf wacc F)).getD (y - 1) 0| /
              (discounted_cf wacc F).getD y 0) ∧
        0 ≤ |(cumsum (discounted_cf wacc F)).getD (y - 1) 0| /
              (discounted_cf wacc F).getD y 0 ∧
        |(cumsum (discounted_cf wacc F)).getD (y - 1) 0| /
            (discounted_cf wacc F).getD y 0 ≤ 1) ∧
    (∀ p, dpp_from wacc F = some p → 0 ≤ p ∧ p ≤ (F.length : ℚ) - 1) := by
  have hdlen : (discounted_cf wacc F).length = F.length := by
    simp [discounted_cf, discount_factors, List.length_zipWith]
  have hdpp : dpp_from wacc F = payback_from (discounted_cf wacc F) := rfl
  refine ⟨fun y hy h1 => payback_interp F y hy h1, ?_, fun y hy h1 => ?_, ?_⟩
  · exact fun p hp => payback_from_bounds F p hp
  · rw [hdpp]
    exact payback_interp (discounted_cf wacc F) y hy h1
  · intro p hp
    rw [hdpp] at hp
    have := payback_from_bounds (discounted_cf wacc F) p hp
    rwa [hdlen] at this

/-- Witness for C10 on `F = [-1000, 500, 500, 500]` with `wacc = 1`: the
undiscounted payback year is `2` and the bounds hold for the finite result. -/
theorem C10_payback_safety_witness :
    firstNonnegIdx (cumsum [-1000, 500, 500, 500]) = some 2 ∧
      (0 < ([-1000, 500, 500, 500] : List ℚ).getD 2 0 ∧
        payback_from [-1000, 500, 500, 500] =
          some ((2 : ℚ) - 1 +
            |(cumsum [-1000, 500, 500, 500]).getD 1 0| /
              ([-1000, 500, 500, 500] : List ℚ).getD 2 0) ∧
        0 ≤ |(cumsum [-1000, 500, 500, 500]).getD 1 0| /
              ([-1000, 500, 500, 500] : List ℚ).getD 2 0 ∧
        |(cumsum [-1000, 500, 500, 500]).getD 1 0| /
            ([-1000, 500, 500, 500] : List ℚ).getD 2 0 ≤ 1) :=
  ⟨by norm_num [cumsum, cumsumAux, firstNonnegIdx],
    (C10_payback_safety [-1000, 500, 500, 500] 1).1 2
      (by norm_num [cumsum, cumsumAux, firstNonnegIdx]) (by norm_num)⟩

/-- C1: the NPV returned by `calculate_project_metrics` on the full vector
`F = [-initial_investment, CF_1, ..., CF_N]` is the direct discounted sum
`F_0 / 1 + sum_{i=1..N} F_i / (1 + wacc)^i`, the year-0 term undiscounted. -/
theorem C1_npv_direct_sum (df_cashflow : List CashFlowRow)
    (initial_investment wacc : ℚ) (h : 0 < wacc) :
    (calculate_project_metrics df_cashflow initial_investment wacc).npv_value =
      npvSpecSum wacc
        (full_cash_flows initial_investment
          (df_cashflow.map (fun row => row.netCashFlow))) := by
  have hval :
      (calculate_project_metrics df_cashflow initial_investment wacc).npv_value =
        npf_npv wacc
          (full_cash_flows initial_investment
            (df_cashflow.map (fun row => row.netCashFlow))) := rfl
  rw [hval]
  generalize df_cashflow.map (fun row => row.netCashFlow) = cfs
  rw [npf_npv, sum_map_range, npvSpecSum]
  have hlen : (full_cash_flows initial_investment cfs).length = cfs.length + 1 := by
    rw [full_cash_flows]; simp
  rw [hlen,
    Finset.sum_range_succ'
      (fun i => (full_cash_flows initial_investment cfs).getD i 0 / (1 + wacc) ^ i)
      cfs.length]
  simp only [pow_zero, Nat.add_sub_cancel, div_one]
  ring

/-- Witness for C1 on a one-row schedule with `wacc = 1`. -/
theorem C1_npv_direct_sum_witness :
    (0 : ℚ) < 1 ∧
      (calculate_project_metrics [⟨1, 0, 0, 0, 0, 0, 0, 500⟩] 1000 1).npv_value =
        npvSpecSum 1
          (full_cash_flows 1000
            (([⟨1, 0, 0, 0, 0, 0, 0, 500⟩] : List CashFlowRow).map
              (fun row => row.netCashFlow))) :=
  ⟨one_pos, C1_npv_direct_sum [⟨1, 0, 0, 0, 0, 0, 0, 500⟩] 1000 1 one_pos⟩

/-- C2: for a project life `N ≥ 1` and a nonnegative initial investment, the
schedule has `N` rows; each row carries the constant straight-line
depreciation `initial_investment / N`, `ebt = revenue - cost - depreciation`,
`tax = max(ebt, 0) * tax_rate` (a loss year pays no tax and receives no tax
benefit), `eat = ebt - tax`, `netCashFlow = eat + depreciation`; and any two
rows are identical except for the `year` field. -/
theorem C2_schedule_rows (initial_investment annual_revenue annual_cost tax_rate : ℚ)
    (project_life : Nat) (hn : 1 ≤ project_life) (hc0 : 0 ≤ initial_investment) :
    (cashflow_schedule initial_investment annual_revenue annual_cost tax_rate
        project_life).length = project_life ∧
    (∀ i < project_life,
      (cashflow_schedule initial_investment annual_revenue annual_cost tax_rate
          project_life).getD i ⟨0, 0, 0, 0, 0, 0, 0, 0⟩ =
        { year := i + 1
          revenue := annual_revenue
          operatingCost := annual_cost
          depreciation := initial_investment / (project_life : ℚ)
          ebt := annual_revenue - annual_cost - initial_investment / (project_life : ℚ)
          tax :=
            max (annual_revenue - annual_cost - initial_investment / (project_life : ℚ)) 0 *
              tax_rate
          eat :=
            annual_revenue - annual_cost - initial_investment / (project_life : ℚ) -
              max (annual_revenue - annual_cost - initial_investment / (project_life : ℚ)) 0 *
                tax_rate
          netCashFlow :=
            annual_revenue - annual_cost - initial_investment / (project_life : ℚ) -
                max (annual_revenue - annual_cost - initial_investment / (project_life : ℚ)) 0 *
                  tax_rate +
              initial_investment / (project_life : ℚ) }) ∧
    ∀ i j, i < project_life → j < project_life →
      ((cashflow_schedule initial_investment annual_revenue annual_cost tax_rate
          project_life).getD i ⟨0, 0, 0, 0, 0, 0, 0, 0⟩).revenue =
        ((cashflow_schedule initial_investment annual_revenue annual_cost tax_rate
          project_life).getD j ⟨0, 0, 0, 0, 0, 0, 0, 0⟩).revenue ∧
      ((cashflow_schedule initial_investment annual_revenue annual_cost tax_rate
          project_life).getD i ⟨0, 0, 0, 0, 0, 0, 0, 0⟩).operatingCost =
        ((cashflow_schedule initial_investment annual_revenue annual_cost tax_rate
          project_life).getD j ⟨0, 0, 0, 0, 0, 0, 0, 0⟩).operatingCost ∧
      ((cashflow_schedule initial_investment annual_revenue annual_cost tax_rate
          project_life).getD i ⟨0, 0, 0, 0, 0, 0, 0, 0⟩).depreciation =
        ((cashflow_schedule initial_investment annual_revenue annual_cost tax_rate
          project_life).getD j ⟨0, 0, 0, 0, 0, 0, 0, 0⟩).depreciation ∧
      ((cashflow_schedule initial_investment annual_revenue annual_cost tax_rate
          project_life).getD i ⟨0, 0, 0, 0, 0, 0, 0, 0⟩).ebt =
        ((cashflow_schedule initial_investment annual_revenue annual_cost tax_rate
          project_life).getD j ⟨0, 0, 0, 0, 0, 0, 0, 0⟩).ebt ∧
      ((cashflow_schedule initial_investment annual_revenue annual_cost tax_rate
          project_life).getD i ⟨0, 0, 0, 0, 0, 0, 0, 0⟩).tax =
        ((cashflow_schedule initial_investment annual_revenue annual_cost tax_rate
          project_life).getD j ⟨0, 0, 0, 0, 0, 0, 0, 0⟩).tax ∧
      ((cashflow_schedule initial_investment annual_revenue annual_cost tax_rate
          project_life).getD i ⟨0, 0, 0, 0, 0, 0, 0, 0⟩).eat =
        ((cashflow_schedule initial_investment annual_revenue annual_cost tax_rate
          project_life).getD j ⟨0, 0, 0, 0, 0, 0, 0, 0⟩).eat ∧
      ((cashflow_schedule initial_investment annual_revenue annual_cost tax_rate
          project_life).getD i ⟨0, 0, 0, 0, 0, 0, 0, 0⟩).netCashFlow =
        ((cashflow_schedule initial_investment annual_revenue annual_cost tax_rate
          project_life).getD j ⟨0, 0, 0, 0, 0, 0, 0, 0⟩).netCashFlow := by
  have htax :
      (if 0 < annual_revenue - annual_cost - initial_investment / (project_life : ℚ) then
          (annual_revenue - annual_cost - initial_investment / (project_life : ℚ)) * tax_rate
        else 0) =
        max (annual_revenue - annual_cost - initial_investment / (project_life : ℚ)) 0 *
          tax_rate := by
    rcases lt_or_le 0
        (annual_revenue - annual_cost - initial_investment / (project_life : ℚ)) with hpos | hle
    · rw [if_pos hpos, max_eq_left hpos.le]
    · rw [if_neg (not_lt.mpr hle), max_eq_right hle, zero_mul]
  have hrow : ∀ i < project_life,
      (cashflow_schedule initial_investment annual_revenue annual_cost tax_rate
          project_life).getD i ⟨0, 0, 0, 0, 0, 0, 0, 0⟩ =
        { year := i + 1
          revenue := annual_revenue
          operatingCost := annual_cost
          depreciation := initial_investment / (project_life : ℚ)
          ebt := annual_revenue - annual_cost - initial_investment / (project_life : ℚ)
          tax :=
            max (annual_revenue - annual_cost - initial_investment / (project_life : ℚ)) 0 *
              tax_rate
          eat :=
            annual_revenue - annual_cost - initial_investment / (project_life : ℚ) -
              max (annual_revenue - annual_cost - initial_investment / (project_life : ℚ)) 0 *
                tax_rate
          netCashFlow :=
            annual_revenue - annual_cost - initial_investment / (project_life : ℚ) -
                max (annual_revenue - annual_cost - initial_investment / (project_life : ℚ)) 0 *
                  tax_rate +
              initial_investment / (project_life : ℚ) } := by
    intro i hi
    simp only [cashflow_schedule]
    rw [getD_map_range _ _ hi, htax]
  refine ⟨by simp [cashflow_schedule], hrow, fun i j hi hj => ?_⟩
  rw [hrow i hi, hrow j hj]
  exact ⟨rfl, rfl, rfl, rfl, rfl, rfl, rfl⟩

/-- Witness for C2 at the spec's end-to-end scenario (`C0 = 3·10^10`,
`N = 5`, revenue `1.5·10^10`, cost `6·10^9`, tax rate `1/5`). -/
theorem C2_schedule_rows_witness :
    1 ≤ 5 ∧ (0 : ℚ) ≤ 30000000000 ∧
      (cashflow_schedule 30000000000 15000000000 6000000000 (1 / 5) 5).length = 5 :=
  ⟨by decide, by norm_num,
    (C2_schedule_rows 30000000000 15000000000 6000000000 (1 / 5) 5
      (by decide) (by norm_num)).1⟩

/-- C5 (bug at source line 338): on the no-sign-change vector
`[-1000, -100, -100]` the IRR is the `nan` sentinel and NPV, PP and DPP are
still returned (here with `wacc = 1`); but the `metrics_data` dict stores
`0.0` for the `nan` sentinel, conflating "not computable" with a zero
return, where the claim requires a value that is never zero. -/
theorem C5_nan_sentinel_collapsed :
    npf_irr_nan (full_cash_flows 1000 [-100, -100]) ∧
    npf_npv 1 (full_cash_flows 1000 [-100, -100]) = -1075 ∧
    payback_from (full_cash_flows 1000 [-100, -100]) = none ∧
    dpp_from 1 (full_cash_flows 1000 [-100, -100]) = none ∧
    metrics_data_IRR none = 0 := by
  refine ⟨?_, ?_, ?_, ?_, rfl⟩
  · intro x hx
    have hev : polyEval (full_cash_flows 1000 [-100, -100]) x =
        -1000 + -100 * x + -100 * x ^ 2 := by
      simp [polyEval, full_cash_flows, Finset.sum_range_succ]
    rw [hev]
    have hlt : -1000 + -100 * x + -100 * x ^ 2 < 0 := by nlinarith [sq_nonneg x]
    exact ne_of_lt hlt
  · norm_num [npf_npv, full_cash_flows, List.range_succ]
  · norm_num [payback_from, cumsum, cumsumAux, firstNonnegIdx, full_cash_flows]
  · norm_num [dpp_from, discounted_cf, discount_factors, cumsum, cumsumAux,
      firstNonnegIdx, full_cash_flows, List.range_succ]

/-- C6 (counterexample): with `C0 = 1000 > 0` and all yearly cash flows
`500 > 0` the full vector is `[-1000, 500, 500, 500]`, whose polynomial has
a real root in `(0, 1]`, so `npf.irr` does not return the not-computable
sentinel: the claim fails as stated. -/
theorem C6_counterexample :
    (0 : ℚ) < 1000 ∧ (∀ cf ∈ ([500, 500, 500] : List ℚ), 0 < cf) ∧
    ¬ npf_irr_nan (full_cash_flows 1000 [500, 500, 500]) := by
  refine ⟨by norm_num, by intro cf hcf; simp at hcf; subst hcf; norm_num, ?_⟩
  intro hnan
  have hev : ∀ x : ℝ, polyEval (full_cash_flows 1000 [500, 500, 500]) x =
      -1000 + 500 * x + 500 * x ^ 2 + 500 * x ^ 3 := by
    intro x
    simp [polyEval, full_cash_flows, Finset.sum_range_succ]
  have hcont : Continuous (fun x : ℝ => -1000 + 500 * x + 500 * x ^ 2 + 500 * x ^ 3) := by
    continuity
  have hivt :=
    intermediate_value_Icc (by norm_num : (0 : ℝ) ≤ 1) hcont.continuousOn
  have hmem : (0 : ℝ) ∈
      Set.Icc ((fun x : ℝ => -1000 + 500 * x + 500 * x ^ 2 + 500 * x ^ 3) 0)
        ((fun x : ℝ => -1000 + 500 * x + 500 * x ^ 2 + 500 * x ^ 3) 1) := by
    norm_num
  obtain ⟨x, hxIcc, hgx⟩ := hivt hmem
  have hx0 : 0 < x := by
    rcases lt_or_eq_of_le hxIcc.1 with h | h
    · exact h
    · exfalso
      rw [← h] at hgx
      norm_num at hgx
  exact hnan x hx0 (by rw [hev x]; exact hgx)

/-- C6 (amended): when every yearly cash flow is strictly positive and the
year-0 entry is positive as well (initial investment strictly negative), the
full vector has no sign change and the IRR resolves to the not-computable
sentinel. -/
theorem C6_no_sign_change_nan (initial_investment : ℚ) (cfs : List ℚ)
    (hc0 : initial_investment < 0) (hcfs : ∀ cf ∈ cfs, 0 < cf) :
    npf_irr_nan (full_cash_flows initial_investment cfs) := by
  intro x hx
  apply ne_of_gt
  rw [polyEval]
  have hlen : (full_cash_flows initial_investment cfs).length = cfs.length + 1 := by
    rw [full_cash_flows]; simp
  rw [hlen,
    Finset.sum_range_succ'
      (fun i => ((full_cash_flows initial_investment cfs).getD i 0 : ℝ) * x ^ i)
      cfs.length]
  apply add_pos_of_nonneg_of_pos
  · apply Finset.sum_nonneg
    intro i _
    have hstep : (full_cash_flows initial_investment cfs).getD (i + 1) 0 = cfs.getD i 0 := by
      rw [full_cash_flows]; simp
    rw [hstep]
    apply mul_nonneg _ (pow_nonneg hx.le _)
    rcases lt_or_le i cfs.length with hilt | hige
    · have hmem : cfs.getD i 0 ∈ cfs := by
        rw [List.getD_eq_getElem _ _ hilt]
        exact List.getElem_mem _
      have := (hcfs _ hmem).le
      exact_mod_cast this
    · rw [List.getD_eq_default _ _ hige]
      norm_num
  · have hhead : ((full_cash_flows initial_investment cfs).getD 0 0 : ℝ) * x ^ 0 =
        ((-initial_investment : ℚ) : ℝ) := by
      rw [full_cash_flows]
      simp
    rw [hhead]
    have hq : (0 : ℚ) < -initial_investment := by linarith
    exact_mod_cast hq

/-- Witness for the amended C6 at `C0 = -1`, `CF = [1]`. -/
theorem C6_no_sign_change_nan_witness :
    (-1 : ℚ) < 0 ∧ npf_irr_nan (full_cash_flows (-1) [1]) :=
  ⟨by norm_num,
    C6_no_sign_change_nan (-1) [1] (by norm_num)
      (by intro cf hcf; simp at hcf; subst hcf; norm_num)⟩

end InvestApp
